import Mathlib

/-!
Verification development for the Totalizer system (rkvdns_examples).

The definitions below are a shallow embedding of the Python sources:

* `totalizer/agent_utils.py` — rule engine: key-template tokenizer/parser
  (`WatchRule.parse_keypattern`), token emission (`Token.emit`,
  `OptionalToken.emit`), key generation with the rotating bucket timestamp
  (`WatchRule.key`, `WatchRule.new_ts`), and rule dispatch (`WatchList.match`).
* `totalizer/client_utils.py` — window reconstruction: `Resources`
  (`append`/`sort`/`buckets`), `DictOfTotals`, the match-spec processing and
  the bucket walk of `total()`.
* `agent.py` — ingestion: the bounded commit queue and the overload-shedding
  drop path of `UDPListener.handle_request` / `Controller`.
* `totalizer/fanout.py` — federation: `BaseName.map` / `BaseName.total`.

Modelling conventions: Python dicts become association lists (insertion
order preserved, key lookup by first occurrence, update replaces in place);
wall-clock time is passed explicitly as an integer number of seconds (the
emitted timestamps are `str(int(time()))`, i.e. whole seconds; the two
`time()` calls inside one `WatchRule.key` invocation are modelled as a single
instant); the external regular-expression engine, resolver and store are
oracles (total functions supplied as parameters); Python exceptions become
`Except`; Python float division followed by `int(...)` truncation is modelled
as exact rational arithmetic truncated toward zero (`Int.tdiv`), which agrees
with the float computation whenever the latter rounds exactly.
-/

set_option maxRecDepth 4000

namespace Totalizer

/-! ## Rule engine: key-template tokenizer (agent_utils.py, TOKEN_SPECS)

The template grammar is given by the regular expression alternation
`SUBSTITUTION|OPTIONAL|LITERAL|BAD` with
`SUBSTITUTION = <([^{}<>]+)>`, `OPTIONAL = {([^}]+)}` (braces),
`LITERAL = ([^{}<>]+)`, `BAD = (.)`, scanned left to right by
`re.finditer`.  Inside an optional group the token set drops `OPTIONAL`.
Because each character class excludes its closing delimiter, greedy
matching is forced: a run extends to the first excluded character, which
must then be the closing delimiter for the token to match.  `BAD` consumes
a single character; it is reachable only on the four special characters
(every other character, newline included, is a `LITERAL` character). -/

/-- The opening-brace character, written numerically. -/
def lbrace : Char := Char.ofNat 123

/-- The closing-brace character, written numerically. -/
def rbrace : Char := Char.ofNat 125

/-- The four characters `< > \x7b \x7d` that delimit template tokens
(the class `[^\x7b\x7d<>]` of the Python regexes excludes exactly these). -/
def isSpecial (c : Char) : Bool := c = '<' || c = '>' || c = lbrace || c = rbrace

/-- Raw lexer output: one constructor per named group of the Python token
regex.  An `opt` payload is the unparsed content between the braces. -/
inductive RawTok where
  | sub (name : String)
  | opt (content : List Char)
  | lit (text : String)
  | bad (c : Char)
deriving DecidableEq

/-- Tokenizer for the outer context (`TOKEN_SETS['OUTER_TOKENS']`):
`re.finditer` over `SUBSTITUTION|OPTIONAL|LITERAL|BAD`.  At `<` a
substitution requires a nonempty run of non-special characters closed by
`>`; at an opening brace an optional requires a nonempty run of
non-closing-brace characters closed by a closing brace; a stray special
character lexes as `BAD` (one character); anything else starts a maximal
literal run. -/
def tokenizeOuter : List Char → List RawTok
  | [] => []
  | c :: rest =>
    if c = '<' then
      let run := rest.takeWhile (fun d => !isSpecial d)
      let rest2 := rest.drop run.length
      if run.isEmpty || rest2.head? != some '>' then
        .bad '<' :: tokenizeOuter rest
      else
        .sub (String.mk run) :: tokenizeOuter rest2.tail
    else if c = lbrace then
      let run := rest.takeWhile (fun d => d != rbrace)
      let rest2 := rest.drop run.length
      if run.isEmpty || rest2.isEmpty then
        .bad lbrace :: tokenizeOuter rest
      else
        .opt run :: tokenizeOuter rest2.tail
    else if c = '>' || c = rbrace then
      .bad c :: tokenizeOuter rest
    else
      let run := rest.takeWhile (fun d => !isSpecial d)
      .lit (String.mk (c :: run)) :: tokenizeOuter (rest.drop run.length)
termination_by cs => cs.length
decreasing_by
  all_goals simp [List.length_tail, List.length_drop]
  all_goals omega

/-- Lexer output inside an optional group: the token set
`TOKEN_SETS['OPTIONAL_TOKENS']` has no `OPTIONAL` alternative, so only
these three shapes can occur there. -/
inductive InnerTok where
  | sub (name : String)
  | lit (text : String)
  | bad (c : Char)
deriving DecidableEq

/-- Tokenizer for the optional-group context (`TOKEN_SETS['OPTIONAL_TOKENS']`
= `SUBSTITUTION|LITERAL|BAD`): there is no `OPTIONAL` alternative, so all
four special characters lex as `BAD` unless `<` opens a valid substitution. -/
def tokenizeInner : List Char → List InnerTok
  | [] => []
  | c :: rest =>
    if c = '<' then
      let run := rest.takeWhile (fun d => !isSpecial d)
      let rest2 := rest.drop run.length
      if run.isEmpty || rest2.head? != some '>' then
        .bad '<' :: tokenizeInner rest
      else
        .sub (String.mk run) :: tokenizeInner rest2.tail
    else if isSpecial c then
      .bad c :: tokenizeInner rest
    else
      let run := rest.takeWhile (fun d => !isSpecial d)
      .lit (String.mk (c :: run)) :: tokenizeInner (rest.drop run.length)
termination_by cs => cs.length
decreasing_by
  all_goals simp [List.length_tail, List.length_drop]
  all_goals omega

/-- `ParseError` of agent_utils.py: raised for a `BAD` token
(`Syntax error in ...`) or by `OptionalToken.__init__` when the optional
content holds no substitution (`No substitution defined in optional token.`). -/
inductive ParseError where
  | syntaxError
  | noSubstitution
deriving DecidableEq

/-- Parsed template token (`Token` / `OptionalToken` of agent_utils.py).
An optional token records its content list plus the name of the first
substitution found in it (`OptionalToken.substitution`). -/
inductive KTok where
  | sub (name : String)
  | lit (text : String)
  | opt (content : List KTok) (substitution : String)

/-- First substitution name in a token list: the scan in
`OptionalToken.__init__` (`for tok in value: if tok.spec == 'SUBSTITUTION'`). -/
def firstSub : List KTok → Option String
  | [] => none
  | .sub n :: _ => some n
  | _ :: rest => firstSub rest

/-- Parse the token stream of an optional group's content
(`parse_keypattern` recursion with `context=OPTIONAL_TOKENS`): a `BAD`
token raises the syntax error, the other tokens build `Token` objects. -/
def parseInnerToks : List InnerTok → Except ParseError (List KTok)
  | [] => .ok []
  | .bad _ :: _ => .error .syntaxError
  | .sub n :: rest => (parseInnerToks rest).map (fun ts => KTok.sub n :: ts)
  | .lit t :: rest => (parseInnerToks rest).map (fun ts => KTok.lit t :: ts)

/-- Parse the outer token stream (`parse_keypattern` main loop): an
`OPTIONAL` match recursively parses its content and then builds an
`OptionalToken`, which raises if the content has no substitution; a `BAD`
match raises a syntax error. -/
def parseOuterToks : List RawTok → Except ParseError (List KTok)
  | [] => .ok []
  | .bad _ :: _ => .error .syntaxError
  | .sub n :: rest => (parseOuterToks rest).map (fun ts => KTok.sub n :: ts)
  | .lit t :: rest => (parseOuterToks rest).map (fun ts => KTok.lit t :: ts)
  | .opt content :: rest =>
    match parseInnerToks (tokenizeInner content) with
    | .error e => .error e
    | .ok inner =>
      match firstSub inner with
      | none => .error .noSubstitution
      | some n => (parseOuterToks rest).map (fun ts => KTok.opt inner n :: ts)

/-- `WatchRule.parse_keypattern(pattern)`. -/
def parse_keypattern (pattern : String) : Except ParseError (List KTok) :=
  parseOuterToks (tokenizeOuter pattern.data)

/-! ## Rule engine: token emission and key generation (agent_utils.py)

`WatchRule.substitutions` is a Python dict; it is modelled as an association
list in insertion order (lookup by first occurrence, update in place,
fresh keys appended at the end).  Values are the strings substituted into
keys.  (Python also stores non-string housekeeping values — the compiled
`matchex`, `ttl`, the transient `None` that enables `start_ts` — in the same
dict; those never reach a successful emission and are kept outside the
model's value type: `ttl` is a separate field, `matchex`/`postproc` are
oracles, and the pre-rotation `start_ts` placeholder is an arbitrary string,
overwritten by the first `key()` call before any emission can observe it.) -/

abbrev Subs := List (String × String)

/-- Dict lookup: `subs[n]` (first occurrence; association lists built by
`dictSet` have unique keys). -/
def lookupSub (subs : Subs) (n : String) : Option String :=
  (subs.find? (fun p => p.1 == n)).map (fun p => p.2)

/-- Dict membership test `n in subs`. -/
def hasKey (subs : Subs) (n : String) : Bool := (lookupSub subs n).isSome

/-- Dict item assignment `subs[n] = v`: replace the value in place when the
key exists, append otherwise (Python dicts preserve insertion order; the
lists built by `dictSet` hold each key at most once, so replacing the first
occurrence is the dict semantics). -/
def dictSet (subs : Subs) (n v : String) : Subs :=
  match subs with
  | [] => [(n, v)]
  | p :: rest => if p.1 == n then (n, v) :: rest else p :: dictSet rest n v

/-- Dict merge `subs.update(updates)`, left to right (a later duplicate in
`updates` wins, as in Python). -/
def dictUpdate (subs : Subs) (updates : Subs) : Subs :=
  updates.foldl (fun acc p => dictSet acc p.1 p.2) subs

/-- Lookup with Python `update` semantics: the value the merge leaves for a
key is its last occurrence in the update list. -/
def lookupLast (updates : Subs) (n : String) : Option String :=
  lookupSub updates.reverse n

/-- `KeyError` raised by `Token.emit` when a non-optional substitution's
name is not among the rule's substitutions. -/
inductive KeyError where
  | keyError (name : String)
deriving DecidableEq

mutual

/-- `Token.emit` / `OptionalToken.emit`: a literal emits verbatim; a
substitution looks its name up (`substitutions[self.value]`, `KeyError` when
absent); an optional group emits the empty string when its recorded
substitution name is absent, and otherwise the concatenation of its
content's emissions. -/
def KTok.emit (subs : Subs) : KTok → Except KeyError String
  | .lit t => .ok t
  | .sub n =>
    match lookupSub subs n with
    | some v => .ok v
    | none => .error (.keyError n)
  | .opt content n =>
    if hasKey subs n then emitTokens subs content
    else .ok ""

/-- Emission of a token list joined to one string: the loop of
`WatchRule.generate_key` (and the `join` of `OptionalToken.emit`); the
first raising token aborts the whole generation. -/
def emitTokens (subs : Subs) : List KTok → Except KeyError String
  | [] => .ok ""
  | t :: rest =>
    match KTok.emit subs t, emitTokens subs rest with
    | .ok a, .ok b => .ok (a ++ b)
    | .error e, _ => .error e
    | .ok _, .error e => .error e

end

/-- The reserved rotating-timestamp field name. -/
def startTsKey : String := "start_ts"

/-- `WatchRule` runtime state: the substitutions dict, the rolling
bucket-start timestamp `start_ts` (a float in Python, modelled in whole
seconds; `None` before the first rotation), the bucket period
`bucket_time`, the parsed key template, and the rule's `ttl`. -/
structure WatchRule where
  substitutions : Subs
  start_ts : Option Int
  bucket_time : Nat
  keypattern : List KTok
  ttl : Nat

/-- `WatchRule.__init__` bucket-period computation:
`int(ttl / buckets)` when a truthy `buckets` is configured (float division
truncated, i.e. integer division for the positive configuration values),
`int(ttl)` otherwise. -/
def bucketTimeOf (ttl : Nat) (buckets : Option Nat) : Nat :=
  match buckets with
  | some b => if b ≠ 0 then ttl / b else ttl
  | none => ttl

/-- `WatchRule.__init__`: store the substitutions, leave `start_ts` unset,
fix `bucket_time` once from `ttl` and `buckets`, parse the key pattern. -/
def mkWatchRule (defaults : Subs) (ttl : Nat) (buckets : Option Nat)
    (keypattern : String) : Except ParseError WatchRule := do
  let kp ← parse_keypattern keypattern
  return { substitutions := defaults
           start_ts := none
           bucket_time := bucketTimeOf ttl buckets
           keypattern := kp
           ttl := ttl }

/-- `WatchRule.new_ts`: refresh the rotation timestamp to the current time
and store its integer-second rendering under `start_ts`. -/
def WatchRule.new_ts (r : WatchRule) (now : Int) : WatchRule :=
  { r with start_ts := some now
           substitutions := dictSet r.substitutions startTsKey (toString now) }

/-- Python truthiness of the `start_ts` attribute: `not self.start_ts` is
true for `None` and for a zero timestamp. -/
def startTsFalsy : Option Int → Bool
  | none => true
  | some v => v == 0

/-- The `if updates: self.substitutions.update(updates)` step of
`WatchRule.key`. -/
def WatchRule.merged (r : WatchRule) (updates : Subs) : WatchRule :=
  if updates.isEmpty then r
  else { r with substitutions := dictUpdate r.substitutions updates }

/-- The rotation guard of `WatchRule.key`:
`'start_ts' in self.substitutions and (not self.start_ts or
(time() - self.start_ts) > self.bucket_time)`. -/
def WatchRule.rotateCond (r : WatchRule) (now : Int) : Bool :=
  hasKey r.substitutions startTsKey &&
    (startTsFalsy r.start_ts ||
      (match r.start_ts with
       | some ts => decide ((now - ts) > (r.bucket_time : Int))
       | none => true))

/-- `WatchRule.key(**updates)`: merge the updates into the substitutions
(skipped when there are none), then — when the rule tracks a rotating
timestamp (`'start_ts' in self.substitutions`) and either no rotation has
happened yet or more than `bucket_time` seconds have elapsed since the last
one — rotate via `new_ts`, and finally emit the key from the resulting
state (`generate_key`).  Returns the post-call rule state together with the
emission result. -/
def WatchRule.key (r : WatchRule) (now : Int) (updates : Subs) :
    WatchRule × Except KeyError String :=
  let r1 := r.merged updates
  let r2 := if r1.rotateCond now then r1.new_ts now else r1
  (r2, emitTokens r2.substitutions r2.keypattern)

/-! ## Rule dispatch (agent_utils.py, WatchList)

`WatchList.port_rules` is a `DictOfLists` keyed by `'{address}:{port}'`;
it is modelled as an association list from the port key to the rules
registered under it, in registration order. -/

/-- Runtime view of one registered rule: the mutable `WatchRule` state plus
the two callables held in its substitutions dict — the compiled match
expression (an oracle returning `matched.group(1)` on success, `none` when
the search fails) and the optional `postproc` (an oracle from the matched
line to the substitution updates; a `None` result and a raised exception
both make `match` skip the firing, so the oracle folds them into `none`;
the exception branch of the source would in fact also hit an unimported
`logging` name, which no claim exercises). -/
structure RuleRt where
  wr : WatchRule
  searchGroup1 : String → Option String
  postproc : Option (String → Option Subs)

/-- Errors observable from `WatchList.match`: the unregistered-binding path
executes `return matched` with the local `matched` not yet assigned — an
`UnboundLocalError` (a `NameError`) — and a `KeyError` escaping
`WatchRule.key` propagates to the caller. -/
inductive MatchError where
  | nameError
  | keyError (name : String)
deriving DecidableEq

/-- One iteration of the `WatchList.match` rule loop: search the line, skip
on no match, build the substitution updates (default
`dict(matched=matched.group(1))`, or `postproc`, skipping when it yields
`None`), then produce `(rule.key(**kwargs), rule's ttl)`. -/
def ruleFire (r : RuleRt) (message : String) (now : Int) :
    RuleRt × Except MatchError (Option (String × Nat)) :=
  match r.searchGroup1 message with
  | none => (r, .ok none)
  | some g1 =>
    let kwargs : Option Subs :=
      match r.postproc with
      | some pp => pp message
      | none => some [("matched", g1)]
    match kwargs with
    | none => (r, .ok none)
    | some kw =>
      match r.wr.key now kw with
      | (wr2, .error (.keyError n)) => ({ r with wr := wr2 }, .error (.keyError n))
      | (wr2, .ok k) => ({ r with wr := wr2 }, .ok (some (k, wr2.ttl)))

/-- The `for rule in self.port_rules[port_key]` loop of `WatchList.match`,
threading each rule's mutated state; an escaping exception stops the loop
and discards the collected pairs. -/
def fireAll (message : String) (now : Int) :
    List RuleRt → List RuleRt × Except MatchError (List (String × Nat))
  | [] => ([], .ok [])
  | r :: rest =>
    match ruleFire r message now with
    | (r2, .error e) => (r2 :: rest, .error e)
    | (r2, .ok none) =>
      let (rest2, res) := fireAll message now rest
      (r2 :: rest2, res)
    | (r2, .ok (some pair)) =>
      let (rest2, res) := fireAll message now rest
      (r2 :: rest2, res.map (fun ps => pair :: ps))

abbrev PortRules := List (String × List RuleRt)

/-- `WatchList.PORT_KEY_FORMAT = '{}:{}'`. -/
def portKeyFormat (address : String) (port : Nat) : String :=
  address ++ ":" ++ toString port

/-- `WatchList.match(address, port, message)`.  When the port key has no
registered rules the source executes `return matched`, whose local is
unbound at that point: the call raises a `NameError` instead of returning.
Otherwise every registered rule is tried in registration order. -/
def watchMatch (port_rules : PortRules) (address : String) (port : Nat)
    (message : String) (now : Int) :
    PortRules × Except MatchError (List (String × Nat)) :=
  let port_key := portKeyFormat address port
  match port_rules.find? (fun p => p.1 == port_key) with
  | none => (port_rules, .error .nameError)
  | some entry =>
    let (rules2, res) := fireAll message now entry.2
    (port_rules.map (fun p => if p.1 == port_key then (p.1, rules2) else p), res)

/-! ## Window reconstruction (client_utils.py)

The resolver/store is an oracle: `keys pattern` is the KEYS query for a
wildcarded pattern (`none` for an unsuccessful query — `total()` logs fatal
rcodes and returns the empty dict either way), and `get key` is the GET
query for one full bucket key (`none` for an unsuccessful query, which the
loop skips with `continue`; a successful GET is modelled as carrying the
counter's integer value).  The DNS wire encoding (`escape`, qname
construction, TXT quoting) belongs to the external query protocol and stays
inside the oracle. -/

/-- Python `str.split(sep)` for a one-character separator, on character
lists: the delimiter is modelled as a single character (the source default
`DEFAULT_DELIMITER = ';'`; longer delimiter strings are allowed by the
source but exercised by no claim). -/
def splitChar (sep : Char) : List Char → List (List Char)
  | [] => [[]]
  | c :: rest =>
    let r := splitChar sep rest
    if c = sep then [] :: r
    else
      match r with
      | [] => [[c]]
      | h :: t => (c :: h) :: t

/-- `key.split(delimiter)` on strings. -/
def strSplit (sep : Char) (s : String) : List String :=
  (splitChar sep s.data).map String.mk

/-- `delimiter.join(parts)`. -/
def strJoin (sep : Char) (parts : List String) : String :=
  String.mk (List.intercalate [sep] (parts.map String.data))

/-- Decimal digit value. -/
def digitVal (c : Char) : Option Nat :=
  if '0' ≤ c ∧ c ≤ '9' then some (c.toNat - 48) else none

/-- Accumulating decimal parse of a digit run. -/
def digitsToNatAux : Nat → List Char → Option Nat
  | acc, [] => some acc
  | acc, c :: cs =>
    match digitVal c with
    | some d => digitsToNatAux (acc * 10 + d) cs
    | none => none

/-- Nonempty all-digit run to a natural number. -/
def digitsToNat (ds : List Char) : Option Nat :=
  if ds.isEmpty then none else digitsToNatAux 0 ds

/-- Python `int(str)` on the decimal forms that bucket timestamps take
(optional sign, digits; the whitespace/underscore liberality of `int()` is
exercised by no stored key). `none` models the `ValueError`. -/
def strToInt? (s : String) : Option Int :=
  match s.data with
  | '-' :: ds => (digitsToNat ds).map (fun n => -(n : Int))
  | '+' :: ds => (digitsToNat ds).map (fun n => (n : Int))
  | ds => (digitsToNat ds).map (fun n => (n : Int))

/-- `match_spec[-1].endswith(REDIS_WILDCARD)`: the wildcard is the single
character `*`. -/
def endsWithWildcard (s : String) : Bool :=
  s.data.getLast? == some '*'

/-- One entry of a `total()` match spec: a literal key segment, or one of
the field-handler markers `None`, `Break`, `Ignore` (`MATCH_SPEC_HANDLERS`). -/
inductive SpecItem where
  | literal (s : String)
  | noneMark
  | breakMark
  | ignoreMark
deriving DecidableEq

/-- Membership in `MATCH_SPEC_BREAK = { None, Break }`. -/
def SpecItem.isBreak : SpecItem → Bool
  | .noneMark => true
  | .breakMark => true
  | _ => false

/-- The segment string after wildcard replacement: handler markers become
`REDIS_WILDCARD = '*'`, literals stay. -/
def SpecItem.wildcarded : SpecItem → String
  | .literal s => s
  | _ => "*"

/-- The `item_of_interest` index list: positions of the `None`/`Break`
markers (`Ignore` positions are wildcarded but not collected). -/
def itemsOfInterest (spec : List SpecItem) : List Nat :=
  (spec.enum.filter (fun p => p.2.isBreak)).map (fun p => p.1)

/-- The wildcarded query segments: replace markers by `*`, then append a
final `*` unless the last segment already ends with one (the rotating
timestamp is wildcarded automatically).  Only evaluated after the
`item_of_interest` check, so the list is nonempty (the `getD` default is
unreachable there; Python would raise `IndexError` on an empty spec, but an
empty spec has no break marker and errors out first). -/
def wildSpec (spec : List SpecItem) : List String :=
  let w := spec.map SpecItem.wildcarded
  if endsWithWildcard (w.getLast?.getD "") then w else w ++ ["*"]

/-- `Resources.resources`: for each resource identity (the bucket key minus
its trailing timestamp) the list of its bucket timestamps, in dict
insertion order. -/
abbrev ResourceMap := List (List String × List Int)

/-- The dict-of-lists append inside `Resources.append`. -/
def rmAppend (rm : ResourceMap) (resource : List String) (ts : Int) : ResourceMap :=
  if (rm.find? (fun p => p.1 == resource)).isSome then
    rm.map (fun p => if p.1 == resource then (p.1, p.2 ++ [ts]) else p)
  else rm ++ [(resource, [ts])]

/-- `Resources.append(bucket)`: split the key on the delimiter, check the
expected part count, parse the trailing timestamp with `int(...)`.  The
`ValueError` raised on a wrong part count or a non-integer timestamp is
caught in `total()` (logged and the key skipped), so the model folds the
skip in directly. -/
def resourcesAppend (delim : Char) (parts : Nat) (rm : ResourceMap)
    (key : String) : ResourceMap :=
  let b := strSplit delim key
  if b.length ≠ parts then rm
  else
    match b.getLast? with
    | none => rm
    | some lastPart =>
      match strToInt? lastPart with
      | none => rm
      | some ts => rmAppend rm b.dropLast ts

/-- `Resources.sort`: each resource's timestamp list sorted in descending
order (`item.sort(reverse=True)`; for integers any stable sort produces
this unique ≥-sorted arrangement). -/
def sortDesc (l : List Int) : List Int :=
  List.insertionSort (fun a b => a ≥ b) l

/-- The per-resource part of the `Resources.buckets` generator: yield the
(sorted) timestamps in order, and stop the walk right after yielding a
timestamp below the window floor. -/
def walkOne (wfloor : Int) : List Int → List Int
  | [] => []
  | b :: rest => if b < wfloor then [b] else b :: walkOne wfloor rest

/-- `Resources.buckets`: the walk over all resources, yielding
`(resource, timestamp)` pairs. -/
def bucketsSeq (wfloor : Int) (rm : ResourceMap) : List (List String × Int) :=
  (rm.map (fun p => (walkOne wfloor p.2).map (fun b => (p.1, b)))).flatten

/-- `DictOfTotals`: grouping key to accumulated count. -/
abbrev Totals := List (String × Int)

/-- `DictOfTotals.add(k, n)`: initialize an absent key to 0, then add. -/
def dictAdd (t : Totals) (k : String) (n : Int) : Totals :=
  if (t.find? (fun p => p.1 == k)).isSome then
    t.map (fun p => if p.1 == k then (p.1, p.2 + n) else p)
  else t ++ [(k, n)]

/-- Exceptions `total()` can raise synchronously: `SpecError` when the
match spec holds no `None`/`Break` marker, and the `IndexError` of
`resource[item]` when an interest index falls outside the resource tuple. -/
inductive TotalErr where
  | specError
  | indexError
deriving DecidableEq

/-- The grouping key `delimiter.join(resource[item] for item in
item_of_interest)`; out-of-range tuple indexing raises `IndexError`. -/
def groupKey (delim : Char) (interest : List Nat) (resource : List String) :
    Except TotalErr String :=
  match interest.mapM (fun i => resource.get? i) with
  | some fields => .ok (strJoin delim fields)
  | none => .error .indexError

/-- The accumulation loop of `total()` over `resources.buckets()`:
`last_bucket` resets to `now` whenever the resource changes (the initial
`last_resource = ''` never equals a resource tuple, modelled as `none`);
a failed GET is skipped; an in-window bucket adds its full value and
becomes `last_bucket`; an out-of-window bucket with `last_bucket` below the
floor is skipped (the "should never happen" branch); otherwise the bucket
is pro-rated by `int(value * (last_bucket - window_floor) /
(last_bucket - bucket))`, modelled as exact truncated division. -/
def totalLoop (now wfloor : Int) (delim : Char) (interest : List Nat)
    (get : String → Option Int) :
    List (List String × Int) → Option (List String) → Int → Totals →
    Except TotalErr Totals
  | [], _, _, totals => .ok totals
  | (resource, bucket) :: rest, last_resource, last_bucket, totals =>
    let lb := if last_resource ≠ some resource then now else last_bucket
    match get (strJoin delim (resource ++ [toString bucket])) with
    | none => totalLoop now wfloor delim interest get rest (some resource) lb totals
    | some value =>
      if bucket ≥ wfloor then
        match groupKey delim interest resource with
        | .error e => .error e
        | .ok gk =>
          totalLoop now wfloor delim interest get rest (some resource) bucket
            (dictAdd totals gk value)
      else if lb < wfloor then
        totalLoop now wfloor delim interest get rest (some resource) lb totals
      else
        match groupKey delim interest resource with
        | .error e => .error e
        | .ok gk =>
          totalLoop now wfloor delim interest get rest (some resource) lb
            (dictAdd totals gk (Int.tdiv (value * (lb - wfloor)) (lb - bucket)))

/-- The external key-value store as seen through the resolver. -/
structure Store where
  keys : String → Option (List String)
  get : String → Option Int

/-- `client_utils.total(match_spec, parts, window, ...)`: reject a spec
without a `None`/`Break` marker before any query; enumerate the bucket keys
(an unsuccessful KEYS query yields the empty dict); group them into
resources and sort each timestamp list descending; then run the
accumulation loop. -/
def total (match_spec : List SpecItem) (parts : Nat) (window : Nat)
    (now : Int) (store : Store) (delim : Char) : Except TotalErr Totals :=
  let window_floor := now - (window : Int)
  let interest := itemsOfInterest match_spec
  if interest.isEmpty then .error .specError
  else
    match store.keys (strJoin delim (wildSpec match_spec)) with
    | none => .ok []
    | some ks =>
      let rm := ks.foldl (fun acc k => resourcesAppend delim parts acc k) []
      let rm := rm.map (fun p => (p.1, sortDesc p.2))
      totalLoop now window_floor delim interest store.get
        (bucketsSeq window_floor rm) none now []

/-! ## Ingestion (agent.py)

`Controller` holds an `asyncio.Queue(max_queue)` of pending commits, and
`UDPListener.handle_request` checks `queue_full()` before touching a
datagram: a full queue counts the datagram as `dropped` and returns at
once; otherwise each line is matched and every resulting `(key, ttl)` pair
is submitted.  (The statistics timers are modelled as two counters.) -/

/-- Printable-ASCII bounds of `UDPListener.asciify`. -/
def MIN_GOOD_ASCII : Nat := 32

/-- Printable-ASCII bounds of `UDPListener.asciify`. -/
def MAX_GOOD_ASCII : Nat := 126

/-- Lower-case hex digit of `'{:02x}'.format(c)`. -/
def hexDigit (n : Nat) : Char :=
  if n < 10 then Char.ofNat (48 + n) else Char.ofNat (97 + (n - 10))

/-- `UDPListener.asciify`: printable bytes pass through, anything else
becomes `\xNN`. -/
def asciify (line : List Nat) : String :=
  String.mk ((line.map (fun c =>
    if MIN_GOOD_ASCII ≤ c ∧ c ≤ MAX_GOOD_ASCII then [Char.ofNat c]
    else ['\\', 'x', hexDigit ((c / 16) % 16), hexDigit (c % 16)])).flatten)

/-- `request.split(b'\n')` on the raw datagram bytes. -/
def splitOnByte (sep : Nat) : List Nat → List (List Nat)
  | [] => [[]]
  | b :: rest =>
    let r := splitOnByte sep rest
    if b = sep then [] :: r
    else
      match r with
      | [] => [[b]]
      | h :: t => (b :: h) :: t

/-- Process-local ingestion state: the bounded commit queue
(`Controller.queue` with `max_queue`) and the datagram statistics counters
(the `dropped`/`processed` outcomes recorded by `datagram_timer.stop`). -/
structure AgentState where
  queue : List (String × Nat)
  max_queue : Nat
  dropped : Nat
  processed : Nat

/-- `Controller.queue_full()`: `qsize() >= max_queue`. -/
def queue_full (st : AgentState) : Bool := st.max_queue ≤ st.queue.length

/-- `UDPListener.handle_request(request, datagram_timer)`: when the queue
is already full the datagram is dropped — the drop counter is bumped and
the coroutine returns without enqueuing anything (no `await` on queue
capacity).  Otherwise every line of the datagram is matched and each
resulting `(key, ttl)` pair is submitted to the queue (capacity being
available, `queue.put` completes), and the datagram counts as processed. -/
def handle_request (rules : PortRules) (st : AgentState) (address : String)
    (port : Nat) (request : List Nat) (now : Int) :
    Except MatchError (PortRules × AgentState) :=
  if queue_full st then
    .ok (rules, { st with dropped := st.dropped + 1 })
  else
    match (splitOnByte 10 request).foldlM
      (fun (acc : PortRules × List (String × Nat)) line =>
        match watchMatch acc.1 address port (asciify line) now with
        | (_, .error e) => Except.error e
        | (rules2, .ok ms) => Except.ok (rules2, acc.2 ++ ms))
      (rules, ([] : List (String × Nat))) with
    | .error e => .error e
    | .ok (rules2, items) =>
      .ok (rules2, { st with queue := st.queue ++ items
                             processed := st.processed + 1 })

/-! ## Federation (totalizer/fanout.py)

`BaseName.map(task, ...)` returns a dict mapping each fanout server FQDN to
that server's task result.  `BaseName.total` then executes
`for server_result in self.map(...)`: iterating a Python dict yields its
KEYS — here the server FQDN strings — and the loop body calls
`server_result.items()` on such a string, which raises `AttributeError`. -/

/-- `BaseName.map`: the fanout dict, keyed by server FQDN.  (The thread
pool's completion order only affects dict insertion order; the claims
examined here do not depend on it, so submission order is used.) -/
def baseNameMap (fanout : List String) (task : String → Totals) :
    List (String × Totals) :=
  fanout.map (fun server => (server, task server))

/-- Attribute access `server_result.items()` where `server_result` is a
`str`: strings have no `items` attribute, so this always raises. -/
def strItems (_s : String) : Except String (List (String × Int)) :=
  .error "AttributeError: str object has no attribute items"

/-- The merge loop of `BaseName.total` over `for server_result in
self.map(...)`: dict iteration yields the keys (server FQDN strings), and
each iteration calls `.items()` on that string before summing into the
`DictOfTotals`. -/
def fanoutTotalGo : List String → Totals → Except String Totals
  | [], counts => .ok counts
  | server_result :: rest, counts =>
    match strItems server_result with
    | .error e => .error e
    | .ok items =>
      fanoutTotalGo rest (items.foldl (fun c p => dictAdd c p.1 p.2) counts)

/-- `BaseName.total` on the federated branch (`if self.fanout:` true): the
merge loop applied to the keys of the `map` result dict. -/
def basenameTotalFanout (results : List (String × Totals)) :
    Except String Totals :=
  fanoutTotalGo (results.map (fun p => p.1)) []

/-! ## Dictionary lemmas -/

theorem lookupSub_cons (p : String × String) (s : Subs) (f : String) :
    lookupSub (p :: s) f = if p.1 = f then some p.2 else lookupSub s f := by
  by_cases h : p.1 = f
  · simp [lookupSub, List.find?_cons, h]
  · simp [lookupSub, List.find?_cons, h]

theorem lookupSub_append (s t : Subs) (f : String) :
    lookupSub (s ++ t) f = (lookupSub s f).or (lookupSub t f) := by
  simp only [lookupSub, List.find?_append]
  cases List.find? (fun p => p.1 == f) s <;> simp

theorem lookupSub_dictSet (s : Subs) (n v f : String) :
    lookupSub (dictSet s n v) f = if f = n then some v else lookupSub s f := by
  induction s with
  | nil =>
    by_cases h : f = n
    · subst h; simp [dictSet, lookupSub, List.find?_cons]
    · have hnf : ¬ n = f := fun hc => h hc.symm
      simp [dictSet, lookupSub, List.find?_cons, hnf, h]
  | cons p s ih =>
    by_cases hp : p.1 = n
    · rw [show dictSet (p :: s) n v = (n, v) :: s by simp [dictSet, hp]]
      rw [lookupSub_cons, lookupSub_cons]
      by_cases hf : f = n
      · simp [hf]
      · have hnf : ¬ n = f := fun hc => hf hc.symm
        have hpf : ¬ p.1 = f := fun hc => hf (by rw [← hc, hp])
        simp [hnf, hpf, hf]
    · rw [show dictSet (p :: s) n v = p :: dictSet s n v by simp [dictSet, hp]]
      rw [lookupSub_cons, lookupSub_cons, ih]
      by_cases hpf : p.1 = f
      · have hfn : ¬ f = n := fun hc => hp (by rw [hpf, hc])
        simp [hpf, hfn]
      · simp [hpf]

theorem lookupLast_nil (f : String) : lookupLast [] f = none := rfl

theorem lookupLast_cons (p : String × String) (u : Subs) (f : String) :
    lookupLast (p :: u) f
      = (lookupLast u f).or (if p.1 = f then some p.2 else none) := by
  unfold lookupLast
  simp only [List.reverse_cons]
  rw [lookupSub_append]
  congr 1
  rw [lookupSub_cons]
  by_cases h : p.1 = f <;> simp [h, lookupSub]

theorem lookupSub_dictUpdate (s u : Subs) (f : String) :
    lookupSub (dictUpdate s u) f = (lookupLast u f).or (lookupSub s f) := by
  induction u generalizing s with
  | nil => simp [dictUpdate, lookupLast_nil]
  | cons p u ih =>
    have hstep : dictUpdate s (p :: u) = dictUpdate (dictSet s p.1 p.2) u := rfl
    rw [hstep, ih, lookupLast_cons, lookupSub_dictSet]
    cases lookupLast u f with
    | some a => simp
    | none =>
      by_cases h : f = p.1
      · simp [h]
      · have : ¬ p.1 = f := fun hc => h hc.symm
        simp [h, this]

/-! ## Key-generation state lemmas -/

theorem merged_substitutions (r : WatchRule) (updates : Subs) :
    (r.merged updates).substitutions = dictUpdate r.substitutions updates := by
  unfold WatchRule.merged
  by_cases h : updates.isEmpty
  · have : updates = [] := List.isEmpty_iff.mp h
    subst this
    simp [dictUpdate]
  · simp [h]

theorem merged_frame (r : WatchRule) (updates : Subs) :
    (r.merged updates).start_ts = r.start_ts
    ∧ (r.merged updates).bucket_time = r.bucket_time
    ∧ (r.merged updates).keypattern = r.keypattern
    ∧ (r.merged updates).ttl = r.ttl := by
  unfold WatchRule.merged
  by_cases h : updates.isEmpty <;> simp [h]

theorem new_ts_fields (r : WatchRule) (now : Int) :
    (r.new_ts now).start_ts = some now
    ∧ (r.new_ts now).bucket_time = r.bucket_time
    ∧ (r.new_ts now).keypattern = r.keypattern
    ∧ (r.new_ts now).ttl = r.ttl
    ∧ (r.new_ts now).substitutions
        = dictSet r.substitutions startTsKey (toString now) := by
  simp [WatchRule.new_ts]

theorem key_state (r : WatchRule) (now : Int) (updates : Subs) :
    ((r.key now updates).1 = (r.merged updates).new_ts now
        ∧ (r.merged updates).rotateCond now = true)
    ∨ ((r.key now updates).1 = r.merged updates
        ∧ (r.merged updates).rotateCond now = false) := by
  unfold WatchRule.key
  by_cases h : (r.merged updates).rotateCond now = true
  · exact Or.inl ⟨by simp [h], h⟩
  · exact Or.inr ⟨by simp [h], by simp at h; exact h⟩

theorem key_snd (r : WatchRule) (now : Int) (updates : Subs) :
    (r.key now updates).2
      = emitTokens (r.key now updates).1.substitutions
          (r.key now updates).1.keypattern := by
  unfold WatchRule.key
  by_cases h : (r.merged updates).rotateCond now = true <;> simp [h]

theorem key_lookup_other (r : WatchRule) (now : Int) (updates : Subs)
    (f : String) (hf : f ≠ startTsKey) :
    lookupSub (r.key now updates).1.substitutions f
      = (lookupLast updates f).or (lookupSub r.substitutions f) := by
  rcases key_state r now updates with ⟨h1, _⟩ | ⟨h1, _⟩
  · rw [h1, (new_ts_fields (r.merged updates) now).2.2.2.2, lookupSub_dictSet,
        if_neg hf, merged_substitutions, lookupSub_dictUpdate]
  · rw [h1, merged_substitutions, lookupSub_dictUpdate]

theorem key_frame_fields (r : WatchRule) (now : Int) (updates : Subs) :
    (r.key now updates).1.bucket_time = r.bucket_time
    ∧ (r.key now updates).1.keypattern = r.keypattern
    ∧ (r.key now updates).1.ttl = r.ttl := by
  rcases key_state r now updates with ⟨h1, _⟩ | ⟨h1, _⟩
  · rw [h1]
    refine ⟨?_, ?_, ?_⟩
    · rw [(new_ts_fields _ _).2.1, (merged_frame r updates).2.1]
    · rw [(new_ts_fields _ _).2.2.1, (merged_frame r updates).2.2.1]
    · rw [(new_ts_fields _ _).2.2.2.1, (merged_frame r updates).2.2.2]
  · rw [h1]
    exact ⟨(merged_frame r updates).2.1, (merged_frame r updates).2.2.1,
           (merged_frame r updates).2.2.2⟩

/-! ## Claims about key generation -/

/-- C9: for every parsed key template and every assignment of field values,
emission sends a literal token to its verbatim text; a non-optional
substitution token to the field's value, raising a lookup error
(`KeyError`) when the field is undefined; and an optional group to the
empty string when its recorded substitution's field is undefined, and to
the concatenated emission of its contents when it is defined. -/
theorem c9_token_emission (subs : Subs) (s n v : String) (inner : List KTok) :
    KTok.emit subs (.lit s) = .ok s
    ∧ (lookupSub subs n = some v → KTok.emit subs (.sub n) = .ok v)
    ∧ (lookupSub subs n = none →
        KTok.emit subs (.sub n) = .error (.keyError n))
    ∧ (lookupSub subs n = none → KTok.emit subs (.opt inner n) = .ok "")
    ∧ (lookupSub subs n = some v →
        KTok.emit subs (.opt inner n) = emitTokens subs inner) := by
  refine ⟨rfl, ?_, ?_, ?_, ?_⟩
  · intro h; simp [KTok.emit, h]
  · intro h; simp [KTok.emit, h]
  · intro h; simp [KTok.emit, hasKey, h]
  · intro h; simp [KTok.emit, hasKey, h]

/-- Witness for C9 at concrete inputs: a defined substitution emits its
value; an optional group over an undefined field emits the empty string. -/
theorem c9_token_emission_witness :
    KTok.emit [("a", "1")] (.sub "a") = .ok "1"
    ∧ KTok.emit [("a", "1")] (.opt [KTok.lit "x"] "b") = .ok ""
    ∧ KTok.emit [("a", "1")] (.opt [KTok.lit "x"] "a")
        = emitTokens [("a", "1")] [KTok.lit "x"] :=
  ⟨(c9_token_emission [("a", "1")] "s" "a" "1" []).2.1 rfl,
   (c9_token_emission [("a", "1")] "s" "b" "1" [KTok.lit "x"]).2.2.2.1 rfl,
   (c9_token_emission [("a", "1")] "s" "a" "1" [KTok.lit "x"]).2.2.2.2 rfl⟩

/-- C10: `WatchRule.key(**updates)` merges the updates into the rule's
persistent substitution state before generating the key: afterwards, a
field other than the rotating timestamp holds the updated value when it was
updated and its previous value otherwise (so a captured value persists into
later generations until overwritten); `bucket_time` and the parsed template
are untouched, and the emitted key is generated from the post-merge state. -/
theorem c10_key_updates_persist (r : WatchRule) (now : Int) (updates : Subs)
    (f : String) (hf : f ≠ startTsKey) :
    (lookupLast updates f = none →
       lookupSub (r.key now updates).1.substitutions f
         = lookupSub r.substitutions f)
    ∧ (∀ v, lookupLast updates f = some v →
       lookupSub (r.key now updates).1.substitutions f = some v)
    ∧ (r.key now updates).1.bucket_time = r.bucket_time
    ∧ (r.key now updates).1.keypattern = r.keypattern
    ∧ (r.key now updates).2
        = emitTokens (r.key now updates).1.substitutions r.keypattern := by
  refine ⟨?_, ?_, (key_frame_fields r now updates).1,
          (key_frame_fields r now updates).2.1, ?_⟩
  · intro h0
    rw [key_lookup_other r now updates f hf, h0]
    simp
  · intro v hv
    rw [key_lookup_other r now updates f hf, hv]
    simp
  · rw [key_snd, (key_frame_fields r now updates).2.1]

/-- Witness for C10 at a concrete rule: an updated field takes the new
value, an untouched field keeps its stored value. -/
theorem c10_key_updates_persist_witness :
    lookupSub (WatchRule.key
        { substitutions := [("foo", "old"), ("keep", "k")], start_ts := none,
          bucket_time := 60, keypattern := [], ttl := 120 }
        1000 [("foo", "new")]).1.substitutions "foo" = some "new"
    ∧ lookupSub (WatchRule.key
        { substitutions := [("foo", "old"), ("keep", "k")], start_ts := none,
          bucket_time := 60, keypattern := [], ttl := 120 }
        1000 [("foo", "new")]).1.substitutions "keep" = some "k" :=
  ⟨(c10_key_updates_persist
      { substitutions := [("foo", "old"), ("keep", "k")], start_ts := none,
        bucket_time := 60, keypattern := [], ttl := 120 }
      1000 [("foo", "new")] "foo" (by decide)).2.1 "new" rfl,
   ((c10_key_updates_persist
      { substitutions := [("foo", "old"), ("keep", "k")], start_ts := none,
        bucket_time := 60, keypattern := [], ttl := 120 }
      1000 [("foo", "new")] "keep" (by decide)).1 rfl).trans rfl⟩

/-- C5: with the bucket period fixed at rule definition as `ttl / buckets`
(integer division), a key generation at most `bucket_time` seconds after
the last rotation leaves the rule's state — in particular the emitted
`start_ts` value — unchanged, so two generations inside the period emit
identical keys; a generation strictly more than `bucket_time` seconds after
the last rotation stores the fresh timestamp `now`, which differs from the
previous one. -/
theorem c5_bucket_rotation (r : WatchRule) (ts now now2 : Int)
    (hts : r.start_ts = some ts) (hne : ts ≠ 0)
    (hk : hasKey r.substitutions startTsKey = true) :
    ((now - ts ≤ (r.bucket_time : Int) ∧ now2 - ts ≤ (r.bucket_time : Int)) →
       (r.key now []).1 = r ∧ (r.key now []).2 = (r.key now2 []).2)
    ∧ (now - ts > (r.bucket_time : Int) →
       (r.key now []).1.start_ts = some now
       ∧ lookupSub (r.key now []).1.substitutions startTsKey
           = some (toString now)
       ∧ now ≠ ts)
    ∧ (∀ (ttl b : Nat), b ≠ 0 → bucketTimeOf ttl (some b) = ttl / b) := by
  have hmerge : r.merged [] = r := rfl
  have hfalsy : startTsFalsy r.start_ts = false := by
    rw [hts]
    simp [startTsFalsy, hne]
  have hcond : ∀ (t : Int), r.rotateCond t
      = decide ((t - ts) > (r.bucket_time : Int)) := by
    intro t
    unfold WatchRule.rotateCond
    rw [hk, hfalsy, hts]
    simp
  refine ⟨?_, ?_, ?_⟩
  · rintro ⟨h1, h2⟩
    have hr1 : r.rotateCond now = false := by
      rw [hcond]
      simp
      omega
    have hr2 : r.rotateCond now2 = false := by
      rw [hcond]
      simp
      omega
    have hkey1 : (r.key now []).1 = r := by
      rcases key_state r now [] with ⟨_, hc⟩ | ⟨he, _⟩
      · rw [hmerge] at hc
        rw [hc] at hr1
        simp at hr1
      · rw [he, hmerge]
    refine ⟨hkey1, ?_⟩
    have hkey2 : (r.key now2 []).1 = r := by
      rcases key_state r now2 [] with ⟨_, hc⟩ | ⟨he, _⟩
      · rw [hmerge] at hc
        rw [hc] at hr2
        simp at hr2
      · rw [he, hmerge]
    rw [key_snd, key_snd, hkey1, hkey2]
  · intro h
    have hr1 : r.rotateCond now = true := by
      rw [hcond]
      simp
      omega
    have hkey1 : (r.key now []).1 = r.new_ts now := by
      rcases key_state r now [] with ⟨he, _⟩ | ⟨_, hc⟩
      · rw [he, hmerge]
      · rw [hmerge] at hc
        rw [hc] at hr1
        simp at hr1
    refine ⟨?_, ?_, ?_⟩
    · rw [hkey1, (new_ts_fields r now).1]
    · rw [hkey1, (new_ts_fields r now).2.2.2.2, lookupSub_dictSet, if_pos rfl]
    · have : (0 : Int) ≤ (r.bucket_time : Int) := Int.natCast_nonneg _
      omega
  · intro ttl b hb
    simp [bucketTimeOf, hb]

/-- Witness for C5 at a concrete rule: a generation 60 seconds into a
60-second bucket keeps the state, one 61 seconds in stores timestamp 1061. -/
theorem c5_bucket_rotation_witness :
    (WatchRule.key
        { substitutions := [("start_ts", "1000")], start_ts := some 1000,
          bucket_time := 60, keypattern := [], ttl := 120 } 1060 []).1
      = { substitutions := [("start_ts", "1000")], start_ts := some 1000,
          bucket_time := 60, keypattern := [], ttl := 120 }
    ∧ (WatchRule.key
        { substitutions := [("start_ts", "1000")], start_ts := some 1000,
          bucket_time := 60, keypattern := [], ttl := 120 } 1061 []).1.start_ts
      = some 1061
    ∧ bucketTimeOf 120 (some 2) = 60 :=
  ⟨((c5_bucket_rotation
      { substitutions := [("start_ts", "1000")], start_ts := some 1000,
        bucket_time := 60, keypattern := [], ttl := 120 }
      1000 1060 1060 rfl (by decide) rfl).1 ⟨by decide, by decide⟩).1,
   ((c5_bucket_rotation
      { substitutions := [("start_ts", "1000")], start_ts := some 1000,
        bucket_time := 60, keypattern := [], ttl := 120 }
      1000 1061 1061 rfl (by decide) rfl).2.1 (by decide)).1,
   (c5_bucket_rotation
      { substitutions := [("start_ts", "1000")], start_ts := some 1000,
        bucket_time := 60, keypattern := [], ttl := 120 }
      1000 1061 1061 rfl (by decide) rfl).2.2 120 2 (by decide)⟩

/-! ## Claim C8: parse-time template errors -/

/-- Recognizer for the inner `BAD` lexer output. -/
def InnerTok.isBadTok : InnerTok → Bool
  | .bad _ => true
  | _ => false

/-- Recognizer for the inner `SUBSTITUTION` lexer output. -/
def InnerTok.isSubTok : InnerTok → Bool
  | .sub _ => true
  | _ => false

/-- An optional group's content is erroneous when it lexes to a `BAD` token
in the inner context (a character outside every inner token form — in
particular the opening brace of a nested optional, which the inner token
set cannot match) or when it holds no substitution token. -/
def optContentError (content : List Char) : Bool :=
  (tokenizeInner content).any InnerTok.isBadTok
    || !((tokenizeInner content).any InnerTok.isSubTok)

/-- The claim's error condition on a template: some character lexes as
`BAD` at the outer level (a character outside every legal token form), or
some optional group has erroneous content. -/
def kpErrorCondition (p : String) : Bool :=
  (tokenizeOuter p.data).any (fun t =>
    match t with
    | .bad _ => true
    | .opt content => optContentError content
    | _ => false)

/-- True iff `parse_keypattern` raises. -/
def parseFails (p : String) : Bool :=
  !(parse_keypattern p).isOk

theorem isOk_ok {e a : Type} (x : a) : (Except.ok x : Except e a).isOk = true := rfl

theorem isOk_error {e a : Type} (x : e) :
    (Except.error x : Except e a).isOk = false := rfl

theorem exceptMap_isOk {e a b : Type} (x : Except e a) (f : a → b) :
    (x.map f).isOk = x.isOk := by
  cases x <;> rfl

theorem parseInnerToks_isOk (toks : List InnerTok) :
    (parseInnerToks toks).isOk = !toks.any InnerTok.isBadTok := by
  induction toks with
  | nil => rfl
  | cons t rest ih =>
    cases t with
    | sub n => simp [parseInnerToks, exceptMap_isOk, ih, InnerTok.isBadTok]
    | lit s => simp [parseInnerToks, exceptMap_isOk, ih, InnerTok.isBadTok]
    | bad c => simp [parseInnerToks, isOk_error, InnerTok.isBadTok]

theorem firstSub_parseInnerToks (toks : List InnerTok) (ts : List KTok)
    (h : parseInnerToks toks = .ok ts) :
    (firstSub ts).isSome = toks.any InnerTok.isSubTok := by
  induction toks generalizing ts with
  | nil =>
    cases h
    rfl
  | cons t rest ih =>
    cases t with
    | sub n =>
      cases hrest : parseInnerToks rest with
      | error e => rw [parseInnerToks, hrest] at h; cases h
      | ok ts2 =>
        rw [parseInnerToks, hrest] at h
        cases h
        simp [firstSub, InnerTok.isSubTok]
    | lit s =>
      cases hrest : parseInnerToks rest with
      | error e => rw [parseInnerToks, hrest] at h; cases h
      | ok ts2 =>
        rw [parseInnerToks, hrest] at h
        cases h
        simp [firstSub, InnerTok.isSubTok, ih ts2 hrest]
    | bad c => rw [parseInnerToks] at h; cases h

theorem parseOuterToks_isOk (toks : List RawTok) :
    (parseOuterToks toks).isOk
      = !toks.any (fun t =>
          match t with
          | .bad _ => true
          | .opt content => optContentError content
          | _ => false) := by
  induction toks with
  | nil => rfl
  | cons t rest ih =>
    cases t with
    | sub n => simp [parseOuterToks, exceptMap_isOk, ih]
    | lit s => simp [parseOuterToks, exceptMap_isOk, ih]
    | bad c => simp [parseOuterToks, isOk_error]
    | opt content =>
      cases hinner : parseInnerToks (tokenizeInner content) with
      | error e =>
        have hbad : (tokenizeInner content).any InnerTok.isBadTok = true := by
          have h2 := parseInnerToks_isOk (tokenizeInner content)
          rw [hinner, isOk_error] at h2
          simpa using h2.symm
        simp [parseOuterToks, hinner, isOk_error, optContentError, hbad]
      | ok inner =>
        have hnofail : (tokenizeInner content).any InnerTok.isBadTok = false := by
          have h2 := parseInnerToks_isOk (tokenizeInner content)
          rw [hinner, isOk_ok] at h2
          simpa using h2.symm
        cases hfs : firstSub inner with
        | none =>
          have hnosub : (tokenizeInner content).any InnerTok.isSubTok = false := by
            have h2 := firstSub_parseInnerToks (tokenizeInner content) inner hinner
            rw [hfs] at h2
            simpa using h2.symm
          simp [parseOuterToks, hinner, hfs, isOk_error, optContentError,
                hnofail, hnosub]
        | some n =>
          have hsub : (tokenizeInner content).any InnerTok.isSubTok = true := by
            have h2 := firstSub_parseInnerToks (tokenizeInner content) inner hinner
            rw [hfs] at h2
            simpa using h2.symm
          simp [parseOuterToks, hinner, hfs, exceptMap_isOk, ih,
                optContentError, hnofail, hsub]

/-! ## Claim C4: the bucket walk -/

theorem walkOne_eq (wfloor : Int) (s : List Int) :
    walkOne wfloor s
      = s.takeWhile (fun b => decide (wfloor ≤ b))
          ++ (s.dropWhile (fun b => decide (wfloor ≤ b))).take 1 := by
  induction s with
  | nil => rfl
  | cons b rest ih =>
    by_cases hb : b < wfloor
    · have hd : decide (wfloor ≤ b) = false := by simp; omega
      simp [walkOne, hb, List.takeWhile_cons, List.dropWhile_cons, hd]
    · have hd : decide (wfloor ≤ b) = true := by simp; omega
      simp [walkOne, hb, List.takeWhile_cons, List.dropWhile_cons, hd, ih]

theorem walkOne_sublist (wfloor : Int) (s : List Int) :
    (walkOne wfloor s).Sublist s := by
  induction s with
  | nil => simp [walkOne]
  | cons b rest ih =>
    by_cases hb : b < wfloor
    · simp only [walkOne, if_pos hb]
      exact (List.nil_sublist rest).cons₂ b
    · simp only [walkOne, if_neg hb]
      exact ih.cons₂ b

theorem dropWhile_head_not {α : Type} (p : α → Bool) (s : List α) (x : α)
    (xs : List α) (h : s.dropWhile p = x :: xs) : p x = false := by
  induction s with
  | nil => cases h
  | cons a rest ih =>
    rw [List.dropWhile_cons] at h
    cases hpa : p a with
    | true => rw [if_pos hpa] at h; exact ih h
    | false =>
      rw [if_neg (by simp [hpa])] at h
      cases h
      exact hpa

/-- C4: within one reconstruction call, a resource's bucket walk visits the
sorted timestamp list as its maximal in-window prefix followed by at most
one out-of-window timestamp (the walk stops right after consuming the first
timestamp below the window floor, so no older bucket is visited); when the
resource's timestamps are distinct the visit order is strictly descending;
and when an out-of-window timestamp exists, exactly one is yielded. -/
theorem c4_bucket_walk (wfloor : Int) (l : List Int) :
    walkOne wfloor (sortDesc l)
        = (sortDesc l).takeWhile (fun b => decide (wfloor ≤ b))
            ++ ((sortDesc l).dropWhile (fun b => decide (wfloor ≤ b))).take 1
    ∧ (l.Nodup → (walkOne wfloor (sortDesc l)).Pairwise (fun a b => a > b))
    ∧ ((∃ b ∈ l, b < wfloor) →
        (walkOne wfloor (sortDesc l)).countP (fun b => decide (b < wfloor))
          = 1) := by
  refine ⟨walkOne_eq wfloor (sortDesc l), ?_, ?_⟩
  · intro hnd
    have hsorted : List.Sorted (fun a b => a ≥ b) (sortDesc l) :=
      List.sorted_insertionSort (fun a b => a ≥ b) l
    have hnd2 : (sortDesc l).Nodup :=
      (List.perm_insertionSort (fun a b => a ≥ b) l).nodup_iff.mpr hnd
    have hstrict : (sortDesc l).Pairwise (fun a b => a > b) :=
      (hsorted.and hnd2).imp (fun h => lt_of_le_of_ne h.1 (Ne.symm h.2))
    exact hstrict.sublist (walkOne_sublist wfloor (sortDesc l))
  · rintro ⟨b0, hb0mem, hb0lt⟩
    rw [walkOne_eq wfloor (sortDesc l), List.countP_append]
    have h1 : ((sortDesc l).takeWhile (fun b => decide (wfloor ≤ b))).countP
        (fun b => decide (b < wfloor)) = 0 := by
      refine List.countP_eq_zero.mpr ?_
      intro a ha
      have := List.mem_takeWhile_imp ha
      simp at this ⊢
      omega
    have hne : (sortDesc l).dropWhile (fun b => decide (wfloor ≤ b)) ≠ [] := by
      intro hnil
      have hall := List.dropWhile_eq_nil_iff.mp hnil
      have hmem : b0 ∈ sortDesc l :=
        ((List.perm_insertionSort (fun a b => a ≥ b) l).mem_iff).mpr hb0mem
      have := hall b0 hmem
      simp at this
      omega
    cases hd : (sortDesc l).dropWhile (fun b => decide (wfloor ≤ b)) with
    | nil => exact absurd hd hne
    | cons x xs =>
      have hx := dropWhile_head_not (fun b => decide (wfloor ≤ b)) _ x xs hd
      have hxlt : x < wfloor := by simp at hx; omega
      rw [h1]
      simp [List.countP_cons, hxlt]

/-- Witness for C4: walking `[935, 995, 900]` with floor 940 yields the
strictly descending `[995, 935]` with exactly one out-of-window bucket. -/
theorem c4_bucket_walk_witness :
    (walkOne 940 (sortDesc [935, 995, 900])).Pairwise (fun a b => a > b)
    ∧ (walkOne 940 (sortDesc [935, 995, 900])).countP
        (fun b => decide (b < 940)) = 1 :=
  ⟨(c4_bucket_walk 940 [935, 995, 900]).2.1 (by decide),
   (c4_bucket_walk 940 [935, 995, 900]).2.2 ⟨935, by decide, by decide⟩⟩

/-! ## Claim C2: pro-rating the boundary bucket -/

/-- C2: in the reconstruction loop, when a resource's walk reaches a bucket
strictly below the window floor while the tracked `last_bucket` (reset to
`now` at each resource change, i.e. when no in-window bucket was yet
consumed for the resource) is at or above the floor, the amount added under
the resource's grouping key is
`floor(value * (last_bucket - window_floor) / (last_bucket - bucket))`; and
on the spec's example — buckets at `now - 5` and `now - 65` each of value
10 with a 60-second window — the total is `10 + floor(10 * (lastBucket -
windowFloor) / (lastBucket - t1))` = 19. -/
theorem c2_boundary_prorate :
    (∀ (now wfloor : Int) (delim : Char) (interest : List Nat)
       (get : String → Option Int) (resource : List String) (bucket : Int)
       (rest : List (List String × Int)) (lb : Int) (totals : Totals)
       (value : Int) (gk : String),
       get (strJoin delim (resource ++ [toString bucket])) = some value →
       0 ≤ value → bucket < wfloor → wfloor ≤ lb →
       groupKey delim interest resource = .ok gk →
       totalLoop now wfloor delim interest get ((resource, bucket) :: rest)
           (some resource) lb totals
         = totalLoop now wfloor delim interest get rest (some resource) lb
             (dictAdd totals gk
               (Int.fdiv (value * (lb - wfloor)) (lb - bucket))))
    ∧ total [.literal "page", .noneMark] 3 60 1000
        { keys := fun _ => some ["page;x;995", "page;x;935"],
          get := fun k => if k = "page;x;995" then some 10
                          else if k = "page;x;935" then some 10 else none }
        ';'
      = .ok [("x", 10 + Int.fdiv (10 * (995 - 940)) (995 - 935))] := by
  constructor
  · intro now wfloor delim interest get resource bucket rest lb totals value gk
      hget hval hblt hlble hgk
    have hnum : 0 ≤ value * (lb - wfloor) := mul_nonneg hval (by omega)
    have hden : (0 : Int) ≤ lb - bucket := by omega
    have hnge : ¬ (bucket ≥ wfloor) := by omega
    have hnlt : ¬ (lb < wfloor) := by omega
    simp only [totalLoop, ne_eq, not_true_eq_false, if_false, hget, hgk,
               if_neg hnge, if_neg hnlt]
    rw [Int.tdiv_eq_ediv hnum hden, Int.fdiv_eq_ediv _ hden]
  · rfl

/-- Witness for C2: one pro-rating step at concrete values — bucket 935,
floor 940, `last_bucket` 995, value 10 — adds
`floor(10 * 55 / 60) = 9` under the grouping key. -/
theorem c2_boundary_prorate_witness :
    totalLoop 1000 940 ';' [1]
        (fun k => if k = "page;x;935" then some 10 else none)
        [(["page", "x"], 935)] (some ["page", "x"]) 995 [("x", 10)]
      = totalLoop 1000 940 ';' [1]
          (fun k => if k = "page;x;935" then some 10 else none)
          [] (some ["page", "x"]) 995
          (dictAdd [("x", 10)] "x" (Int.fdiv (10 * (995 - 940)) (995 - 935))) :=
  (c2_boundary_prorate.1 1000 940 ';' [1]
    (fun k => if k = "page;x;935" then some 10 else none)
    ["page", "x"] 935 [] 995 [("x", 10)] 10 "x"
    rfl (by decide) (by decide) (by decide) rfl)

/-! ## Claim C6: spec-error rejection before any query -/

theorem enumFrom_filter_break (n : Nat) (spec : List SpecItem) :
    ((List.enumFrom n spec).filter (fun p => p.2.isBreak) = [])
      ↔ spec.all (fun i => !i.isBreak) = true := by
  induction spec generalizing n with
  | nil => simp
  | cons i rest ih =>
    rw [List.enumFrom, List.filter_cons]
    cases hb : i.isBreak with
    | true => simp [hb]
    | false => simp [hb, ih]

theorem itemsOfInterest_empty_iff (spec : List SpecItem) :
    (itemsOfInterest spec).isEmpty = true
      ↔ spec.all (fun i => !i.isBreak) = true := by
  rw [List.isEmpty_iff]
  unfold itemsOfInterest
  rw [List.map_eq_nil_iff]
  exact enumFrom_filter_break 0 spec

theorem groupKey_error_eq (delim : Char) (interest : List Nat)
    (resource : List String) (e : TotalErr)
    (h : groupKey delim interest resource = .error e) : e = .indexError := by
  unfold groupKey at h
  cases hm : interest.mapM (fun i => resource.get? i) with
  | some fields => rw [hm] at h; cases h
  | none => rw [hm] at h; cases h; rfl

theorem totalLoop_no_specError (now wfloor : Int) (delim : Char)
    (interest : List Nat) (get : String → Option Int)
    (entries : List (List String × Int)) :
    ∀ (lr : Option (List String)) (lb : Int) (totals : Totals),
      totalLoop now wfloor delim interest get entries lr lb totals
        ≠ .error .specError := by
  induction entries with
  | nil => intro lr lb totals h; simp [totalLoop] at h
  | cons e rest ih =>
    intro lr lb totals h
    obtain ⟨resource, bucket⟩ := e
    simp only [totalLoop] at h
    cases hget : get (strJoin delim (resource ++ [toString bucket])) with
    | none =>
      simp only [hget] at h
      exact ih _ _ _ h
    | some value =>
      simp only [hget] at h
      by_cases h1 : bucket ≥ wfloor
      · rw [if_pos h1] at h
        cases hgk : groupKey delim interest resource with
        | error e2 =>
          simp only [hgk] at h
          cases h
          exact absurd (groupKey_error_eq delim interest resource _ hgk)
            (by intro hc; cases hc)
        | ok gk =>
          simp only [hgk] at h
          exact ih _ _ _ h
      · rw [if_neg h1] at h
        by_cases h2 : (if lr ≠ some resource then now else lb) < wfloor
        · rw [if_pos h2] at h
          exact ih _ _ _ h
        · rw [if_neg h2] at h
          cases hgk : groupKey delim interest resource with
          | error e2 =>
            simp only [hgk] at h
            cases h
            exact absurd (groupKey_error_eq delim interest resource _ hgk)
              (by intro hc; cases hc)
          | ok gk =>
            simp only [hgk] at h
            exact ih _ _ _ h

/-- C6: `total()` raises its specification error exactly when the match
spec holds no `None`/`Break` marker, and it does so synchronously — the
result is the error for every store oracle, i.e. before any store query is
issued; with at least one such marker present no specification error is
raised, whatever the store returns. -/
theorem c6_spec_error_iff (spec : List SpecItem) (parts window : Nat)
    (now : Int) (store : Store) (delim : Char) :
    total spec parts window now store delim = .error .specError
      ↔ spec.all (fun i => !i.isBreak) = true := by
  constructor
  · intro h
    by_cases hi : (itemsOfInterest spec).isEmpty = true
    · exact (itemsOfInterest_empty_iff spec).mp hi
    · exfalso
      unfold total at h
      rw [if_neg (by simpa using hi)] at h
      cases hk : store.keys (strJoin delim (wildSpec spec)) with
      | none => rw [hk] at h; cases h
      | some ks =>
        rw [hk] at h
        exact totalLoop_no_specError now (now - (window : Int)) delim
          (itemsOfInterest spec) store.get _ _ _ _ h
  · intro h
    unfold total
    rw [if_pos (by simpa using (itemsOfInterest_empty_iff spec).mpr h)]

/-- C8: parsing a key template raises a syntax error exactly when the
template lexes to a `BAD` token at the outer level (a character outside
every legal token form), or one of its optional groups has content that
lexes to an inner `BAD` token (covering a nested optional group, whose
opening brace no inner token form matches) or contains zero substitution
tokens; a template free of these conditions parses without error. -/
theorem c8_parse_time_errors (p : String) :
    parseFails p = kpErrorCondition p := by
  unfold parseFails kpErrorCondition parse_keypattern
  rw [parseOuterToks_isOk]
  simp

/-! ## Claim C3: dispatch with no registered rules -/

/-- C3: calling `WatchList.match` for an `address:port` binding under which
no rule is registered does not return the empty list: the source executes
`return matched` with the local `matched` still unassigned, raising a
`NameError` (`UnboundLocalError`).  Here the watch list holds rules only
under `10.0.0.1:9`, and a lookup for `1.1.1.1:3047` errors out. -/
theorem c3_unregistered_binding_name_error :
    watchMatch [("10.0.0.1:9", [])] "1.1.1.1" 3047 "hello" 0
      = ([("10.0.0.1:9", [])], .error .nameError) := rfl

/-! ## Claim C7: overload shedding at the commit queue -/

/-- C7: when the commit queue already holds `max_queue` items,
`handle_request` drops the incoming datagram: the queue is left untouched
(nothing is enqueued, and the coroutine never suspends on queue capacity),
the drop counter is incremented, the processed counter is not, and the rule
state is unchanged. -/
theorem c7_queue_full_drops (rules : PortRules) (st : AgentState)
    (address : String) (port : Nat) (request : List Nat) (now : Int)
    (h : queue_full st = true) :
    handle_request rules st address port request now
      = .ok (rules, { st with dropped := st.dropped + 1 }) := by
  unfold handle_request
  rw [if_pos h]

/-- Witness for C7: a queue at its maximum depth 2 drops a datagram,
leaving the two queued items alone and counting one drop. -/
theorem c7_queue_full_drops_witness :
    handle_request [("1.1.1.1:3047", [])]
        { queue := [("k1", 1), ("k2", 2)], max_queue := 2,
          dropped := 0, processed := 0 }
        "1.1.1.1" 3047 [104, 105] 0
      = .ok ([("1.1.1.1:3047", [])],
          { queue := [("k1", 1), ("k2", 2)], max_queue := 2,
            dropped := 1, processed := 0 }) :=
  c7_queue_full_drops [("1.1.1.1:3047", [])]
    { queue := [("k1", 1), ("k2", 2)], max_queue := 2,
      dropped := 0, processed := 0 }
    "1.1.1.1" 3047 [104, 105] 0 (by decide)

/-! ## Claim C1: the federated merge -/

/-- C1: federated `BaseName.total` over two locations whose reconstructions
return `a ↦ 3` and `a ↦ 4, b ↦ 1` does not return the merged totals: the
loop iterates the `map` result dict — yielding the server-name strings —
and calls `.items()` on a string, raising `AttributeError`.  The per-key
sums that the merge was documented to produce (folding the per-location
items through `DictOfTotals.add`) would have been `a ↦ 7, b ↦ 1`. -/
theorem c1_federated_merge_raises :
    basenameTotalFanout [("loc1", [("a", 3)]), ("loc2", [("a", 4), ("b", 1)])]
        = .error "AttributeError: str object has no attribute items"
    ∧ dictAdd (dictAdd (dictAdd [] "a" 3) "a" 4) "b" 1 = [("a", 7), ("b", 1)] :=
  ⟨rfl, rfl⟩

end Totalizer
